import Mathlib

/-!
Shallow embedding of `src/raytracing/drawing.py` (the `Drawing` class of the
RayTracing repository) and verification of its specification.

Modelling conventions:
* Python floats are modelled as real numbers `ℝ`.
* Python exceptions are modelled with `Except PyErr` (for pure computations)
  or with a `Drawing × Option PyErr` result (for state-mutating methods, so
  that mutations performed before a failure remain observable).
* A matplotlib transform expression is modelled syntactically by the
  inductive `Transform`; `Transform.compose f g` is matplotlib's `f + g`
  (apply `f` first, then `g`), and `Transform.transData i` stands for the
  data-to-screen transform of the axes with identifier `i`.
* A component (`matplotlib.patches.Patch`) is modelled by its untransformed
  vertex list `xy` (what `get_xy()` returns), its current transform, and the
  flag `inAxes` recording whether it has been registered on axes via
  `add_patch` (matplotlib sets the artist's remove hook there; `remove()` on
  an artist that was never added raises `NotImplementedError`).
* The axes collaborator is modelled by its `viewLim` bounding box, an opaque
  identifier for its `transData` transform, and the list of registered patch
  identifiers (component indices) — its set of drawable objects.
-/

/-- Python runtime errors that the code under analysis can surface. -/
inductive PyErr where
  | attributeError
  | valueError
  | typeError
  | notImplementedError
  deriving DecidableEq, Repr

/-- Matplotlib bounding box, tracked through `bounds = (x0, y0, width, height)`. -/
structure Bbox where
  x0 : ℝ
  y0 : ℝ
  width : ℝ
  height : ℝ

/-- Matplotlib transform expressions as the code builds them.
`compose f g` is matplotlib's `f + g`: apply `f` first, then `g`. -/
inductive Transform where
  | identity
  | scale (sx sy : ℝ)
  | translate (tx ty : ℝ)
  | transData (axesId : ℕ)
  | compose (f g : Transform)

/-- A `matplotlib.patches.Patch`: untransformed vertices (`get_xy()`), the
currently assigned transform, and whether it is registered on axes. -/
structure Patch where
  xy : List (ℝ × ℝ)
  transform : Transform
  inAxes : Bool

/-- The axes collaborator: current view limits, an identifier for its
`transData` transform, and the identifiers of the registered patches. -/
structure Axes where
  viewLim : Bbox
  transId : ℕ
  patches : List ℕ

/-- State of a `Drawing` instance: the fixed component list and the
`axes`/`x`/`y` attributes (each `None` until `applyTo` sets them). -/
structure Drawing where
  components : List Patch
  axes : Option Axes
  x : Option ℝ
  y : Option ℝ

/-- Constructor `Drawing.__init__(*components)`: stores the components; `axes`, `x` and
`y` start as `None`. -/
def Drawing.init (components : List Patch) : Drawing :=
  { components := components, axes := none, x := none, y := none }

/-- Model of `np.max` over a Python list of floats: raises `ValueError` on an empty
list, otherwise folds `max` over the elements. -/
noncomputable def npMax : List ℝ → Except PyErr ℝ
  | [] => .error .valueError
  | a :: as => .ok (as.foldl max a)

/-- Model of `np.min` over a Python list of floats: raises `ValueError` on an empty
list, otherwise folds `min` over the elements. -/
noncomputable def npMin : List ℝ → Except PyErr ℝ
  | [] => .error .valueError
  | a :: as => .ok (as.foldl min a)

/-- The loop of `Drawing.height`: for each component, append
`np.max(component.get_xy(), axis=0)[1]` to `top` and
`np.min(component.get_xy(), axis=0)[1]` to `bottom`. -/
noncomputable def topBottom : List Patch → Except PyErr (List ℝ × List ℝ)
  | [] => .ok ([], [])
  | c :: cs =>
    match npMax (c.xy.map Prod.snd) with
    | .error e => .error e
    | .ok t =>
      match npMin (c.xy.map Prod.snd) with
      | .error e => .error e
      | .ok b =>
        match topBottom cs with
        | .error e => .error e
        | .ok (ts, bs) => .ok (t :: ts, b :: bs)

/-- Method `Drawing.height`: `np.max(top) - np.min(bottom)` over the per-component
vertical extrema collected by the loop. -/
noncomputable def Drawing.height (d : Drawing) : Except PyErr ℝ :=
  match topBottom d.components with
  | .error e => .error e
  | .ok (ts, bs) =>
    match npMax ts with
    | .error e => .error e
    | .ok t =>
      match npMin bs with
      | .error e => .error e
      | .ok b => .ok (t - b)

/-- Method `Drawing.axesToDataScale`: `self.axes.viewLim.bounds[2:]`, i.e. the
`(width, height)` of the view limits; `AttributeError` when `axes is None`. -/
def Drawing.axesToDataScale (d : Drawing) : Except PyErr (ℝ × ℝ) :=
  match d.axes with
  | none => .error .attributeError
  | some ax => .ok (ax.viewLim.width, ax.viewLim.height)

/-- Method `Drawing.scaling`: `heightFactor = self.height() / yScale`;
`xScaling = xScale * (heightFactor / 0.2) ** (3 / 4)`; returns
`(xScaling, 1)`. -/
noncomputable def Drawing.scaling (d : Drawing) : Except PyErr (ℝ × ℝ) :=
  match Drawing.axesToDataScale d with
  | .error e => .error e
  | .ok (xScale, yScale) =>
    match Drawing.height d with
    | .error e => .error e
    | .ok h => .ok (xScale * (h / yScale / 0.2) ^ ((3 : ℝ) / 4), 1)

/-- The composed transform assigned to every component by `Drawing.update`:
`scaling + translation + self.axes.transData`. -/
noncomputable def composedTransform (xScaling yScaling px py : ℝ) (axId : ℕ) : Transform :=
  .compose (.compose (.scale xScaling yScaling) (.translate px py)) (.transData axId)

/-- The two leading statements of `Drawing.update`: `if x is not None:
self.x = x` and `if y is not None: self.y = y`. -/
def setCoords (d : Drawing) (x y : Option ℝ) : Drawing :=
  { d with
    x := match x with | some v => some v | none => d.x
    y := match y with | some v => some v | none => d.y }

/-- The loop of `Drawing.update`: assign
`scaling + translation + self.axes.transData` to every component. -/
noncomputable def setTransforms (d : Drawing) (xScaling yScaling px py : ℝ) (axId : ℕ) : Drawing :=
  { d with
    components := d.components.map (fun c =>
      { c with transform := composedTransform xScaling yScaling px py axId }) }

/-- Method `Drawing.update(x=None, y=None)`: overwrite the stored coordinates that
were provided, recompute the scaling, then assign the composed transform to
every component. The first output is the resulting state (mutations before a
failure are kept); the second is the raised error, if any. -/
noncomputable def Drawing.update (d : Drawing) (x y : Option ℝ) : Drawing × Option PyErr :=
  let d1 : Drawing := setCoords d x y
  match Drawing.scaling d1 with
  | .error e => (d1, some e)
  | .ok (xScaling, yScaling) =>
    match d1.x, d1.y, d1.axes with
    | some px, some py, some ax => (setTransforms d1 xScaling yScaling px py ax.transId, none)
    | _, _, _ => (d1, some .typeError)

/-- The loop of `Drawing.applyTo`: `self.axes.add_patch(component)` for every
component — each component is appended to the axes' patch list and marked as
registered. -/
def addAllPatches (d : Drawing) : Drawing :=
  { d with
    components := d.components.map (fun c => { c with inAxes := true })
    axes := match d.axes with
      | some ax => some { ax with patches := ax.patches ++ List.range d.components.length }
      | none => none }

/-- Method `Drawing.applyTo(axes, x=0, y=0)`: store `axes`, `x`, `y`, call
`update()`, then register every component on the axes. -/
noncomputable def Drawing.applyTo (d : Drawing) (axes : Axes) (x y : ℝ) : Drawing × Option PyErr :=
  let d1 : Drawing := { d with axes := some axes, x := some x, y := some y }
  match Drawing.update d1 none none with
  | (d2, some e) => (d2, some e)
  | (d2, none) => (addAllPatches d2, none)

/-- The loop of `Drawing.remove`: `component.remove()` for each component
index in turn. A component that was registered is deregistered (its
identifier is erased from the axes' patch list); `component.remove()` on a
component that was never registered raises `NotImplementedError`. -/
noncomputable def removeComponents : Drawing → List ℕ → Drawing × Option PyErr
  | d, [] => (d, none)
  | d, i :: is =>
    match d.components[i]?, d.axes with
    | some c, some ax =>
      if c.inAxes then
        removeComponents
          { d with
            components := d.components.set i { c with inAxes := false }
            axes := some { ax with patches := ax.patches.erase i } }
          is
      else (d, some .notImplementedError)
    | some _, none => (d, some .notImplementedError)
    | none, _ => (d, some .notImplementedError)

/-- Method `Drawing.remove`: run `component.remove()` over all components. -/
noncomputable def Drawing.remove (d : Drawing) : Drawing × Option PyErr :=
  removeComponents d (List.range d.components.length)

/-! ### Spec-side definitions and concrete example data -/

/-- Maximum of a list of reals (head-seeded fold; junk value `0` on `[]`). -/
noncomputable def listMax : List ℝ → ℝ
  | [] => 0
  | a :: as => as.foldl max a

/-- Minimum of a list of reals (head-seeded fold; junk value `0` on `[]`). -/
noncomputable def listMin : List ℝ → ℝ
  | [] => 0
  | a :: as => as.foldl min a

/-- Maximum vertical coordinate of a vertex list. -/
noncomputable def vertMax (xys : List (ℝ × ℝ)) : ℝ := listMax (xys.map Prod.snd)

/-- Minimum vertical coordinate of a vertex list. -/
noncomputable def vertMin (xys : List (ℝ × ℝ)) : ℝ := listMin (xys.map Prod.snd)

/-- Spec-side height of a family of vertex lists, following §8 of the spec:
"max(vertical-max over all components) − min(vertical-min over all
components)", computed from untransformed vertex coordinates only. -/
noncomputable def specHeight (xys : List (List (ℝ × ℝ))) : ℝ :=
  listMax (xys.map vertMax) - listMin (xys.map vertMin)

/-- Example component spanning vertical coordinates `[-5, 0]` (the spec's §8
example, like the `FancyArrow` of the docstring). -/
noncomputable def demoPatch : Patch :=
  { xy := [(0, 0), (0, -5)], transform := .identity, inAxes := false }

/-- Example axes with view bounds of width 10 and height 10 and no patches
registered yet. -/
noncomputable def demoAxes : Axes :=
  { viewLim := { x0 := 0, y0 := 0, width := 10, height := 10 }, transId := 0, patches := [] }

/-- The state of the example drawing right after `axes`, `x = 3`, `y = 4`
have been stored by `applyTo` (before any transform is assigned). -/
noncomputable def demoAttached : Drawing :=
  { components := [demoPatch], axes := some demoAxes, x := some 3, y := some 4 }

/-- Horizontal scale factor of the example: `10 * ((5 / 10) / 0.2) ** 0.75`. -/
noncomputable def demoSx : ℝ := 10 * ((5 : ℝ) / 10 / 0.2) ^ ((3 : ℝ) / 4)

/-! ### General lemmas about the embedded operations -/

/-- Passing no coordinates to `update` leaves the stored position untouched. -/
theorem setCoords_none_none (d : Drawing) : setCoords d none none = d := rfl

/-- Overwriting coordinates does not touch the `axes` attribute. -/
theorem setCoords_axes (d : Drawing) (x y : Option ℝ) : (setCoords d x y).axes = d.axes := rfl

/-- Overwriting coordinates does not touch the component list. -/
theorem setCoords_components (d : Drawing) (x y : Option ℝ) :
    (setCoords d x y).components = d.components := rfl

/-- Successful path of `update`: when the recomputed scaling and the stored
attributes are available, `update` assigns the composed transform to every
component and raises nothing. -/
theorem update_ok_eq (d : Drawing) (x y : Option ℝ) (ax : Axes) (px py sx sy : ℝ)
    (hx : (setCoords d x y).x = some px) (hy : (setCoords d x y).y = some py)
    (hax : d.axes = some ax)
    (hs : Drawing.scaling (setCoords d x y) = .ok (sx, sy)) :
    Drawing.update d x y = (setTransforms (setCoords d x y) sx sy px py ax.transId, none) := by
  unfold Drawing.update
  simp only [hs, hx, hy, setCoords_axes, hax]

/-- Failing path of `update`: when `scaling()` raises, `update` propagates the
error and the state keeps the already-overwritten coordinates. -/
theorem update_error_eq (d : Drawing) (x y : Option ℝ) (e : PyErr)
    (hs : Drawing.scaling (setCoords d x y) = .error e) :
    Drawing.update d x y = (setCoords d x y, some e) := by
  unfold Drawing.update
  simp only [hs]

/-- Before attachment, `scaling()` dereferences `self.axes = None` and raises
`AttributeError`. -/
theorem scaling_of_axes_none (d : Drawing) (h : d.axes = none) :
    Drawing.scaling d = .error .attributeError := by
  unfold Drawing.scaling Drawing.axesToDataScale
  rw [h]

/-- Evaluation of `np.max` on a nonempty list. -/
theorem npMax_eq_listMax (l : List ℝ) (h : l ≠ []) : npMax l = .ok (listMax l) := by
  cases l with
  | nil => exact absurd rfl h
  | cons a as => rfl

/-- Evaluation of `np.min` on a nonempty list. -/
theorem npMin_eq_listMin (l : List ℝ) (h : l ≠ []) : npMin l = .ok (listMin l) := by
  cases l with
  | nil => exact absurd rfl h
  | cons a as => rfl

/-- When every component has vertices, the collection loop of `height`
returns the per-component vertical extrema. -/
theorem topBottom_eq (cs : List Patch) (h : ∀ c ∈ cs, c.xy ≠ []) :
    topBottom cs = .ok (cs.map (fun c => vertMax c.xy), cs.map (fun c => vertMin c.xy)) := by
  induction cs with
  | nil => rfl
  | cons c cs ih =>
    have hc : c.xy.map Prod.snd ≠ [] := by
      simpa using h c (List.mem_cons_self c cs)
    have ihh := ih (fun c' hc' => h c' (List.mem_cons_of_mem c hc'))
    unfold topBottom
    rw [npMax_eq_listMax _ hc, npMin_eq_listMin _ hc, ihh]
    rfl

/-- On a drawing with components that all have vertices, `height()` returns
the spec-side intrinsic vertical extent. -/
theorem height_eq (d : Drawing) (h1 : d.components ≠ [])
    (h2 : ∀ c ∈ d.components, c.xy ≠ []) :
    Drawing.height d = .ok (specHeight (d.components.map Patch.xy)) := by
  unfold Drawing.height
  have hne : d.components.map (fun c => vertMax c.xy) ≠ [] := by
    simpa using h1
  have hne' : d.components.map (fun c => vertMin c.xy) ≠ [] := by
    simpa using h1
  simp only [topBottom_eq _ h2, npMax_eq_listMax _ hne, npMin_eq_listMin _ hne']
  unfold specHeight
  rw [List.map_map, List.map_map]
  rfl

/-- The collection loop of `height` only reads the components' vertices. -/
theorem topBottom_congr (cs cs' : List Patch) (h : cs.map Patch.xy = cs'.map Patch.xy) :
    topBottom cs = topBottom cs' := by
  induction cs generalizing cs' with
  | nil =>
    cases cs' with
    | nil => rfl
    | cons c' cs' => simp at h
  | cons c cs ih =>
    cases cs' with
    | nil => simp at h
    | cons c' cs' =>
      simp only [List.map_cons, List.cons.injEq] at h
      unfold topBottom
      rw [h.1, ih cs' h.2]

/-- Result of `height()` depends only on the components' untransformed
vertices (not on transforms, registration flags, or the `axes`/`x`/`y`
attributes). -/
theorem height_congr (d d' : Drawing) (h : d.components.map Patch.xy = d'.components.map Patch.xy) :
    Drawing.height d = Drawing.height d' := by
  unfold Drawing.height
  rw [topBottom_congr _ _ h]

/-- Result of `scaling()` depends only on the `axes` attribute and the
components' untransformed vertices. -/
theorem scaling_congr (d d' : Drawing) (hax : d.axes = d'.axes)
    (h : d.components.map Patch.xy = d'.components.map Patch.xy) :
    Drawing.scaling d = Drawing.scaling d' := by
  unfold Drawing.scaling Drawing.axesToDataScale
  rw [hax, height_congr d d' h]

/-- Overwriting the same coordinates twice is the same as doing it once. -/
theorem setCoords_idem (d : Drawing) (x y : Option ℝ) :
    setCoords (setCoords d x y) x y = setCoords d x y := by
  unfold setCoords
  cases x <;> cases y <;> rfl

/-- Coordinate overwrite and transform assignment act on disjoint fields. -/
theorem setCoords_setTransforms (d : Drawing) (x y : Option ℝ) (a b p q : ℝ) (i : ℕ) :
    setCoords (setTransforms d a b p q i) x y = setTransforms (setCoords d x y) a b p q i := rfl

/-- Assigning transforms preserves the components' untransformed vertices. -/
theorem setTransforms_xy (d : Drawing) (a b p q : ℝ) (i : ℕ) :
    (setTransforms d a b p q i).components.map Patch.xy = d.components.map Patch.xy := by
  unfold setTransforms
  simp [List.map_map]

/-- Assigning transforms does not change the result of `scaling()`. -/
theorem scaling_setTransforms (d : Drawing) (a b p q : ℝ) (i : ℕ) :
    Drawing.scaling (setTransforms d a b p q i) = Drawing.scaling d :=
  scaling_congr _ _ rfl (setTransforms_xy d a b p q i)

/-- Re-assigning the same transform to every component is idempotent. -/
theorem setTransforms_idem (d : Drawing) (a b p q : ℝ) (i : ℕ) :
    setTransforms (setTransforms d a b p q i) a b p q i = setTransforms d a b p q i := by
  unfold setTransforms
  simp [List.map_map]

/-- Inversion of a successful `update`: it must have gone through the
scaling computation and the transform-assignment loop. -/
theorem update_ok_inv (d d' : Drawing) (x y : Option ℝ)
    (h : Drawing.update d x y = (d', none)) :
    ∃ ax px py sx sy,
      (setCoords d x y).x = some px ∧ (setCoords d x y).y = some py ∧
      d.axes = some ax ∧
      Drawing.scaling (setCoords d x y) = .ok (sx, sy) ∧
      d' = setTransforms (setCoords d x y) sx sy px py ax.transId := by
  simp only [Drawing.update, setCoords_axes] at h
  cases hsc : Drawing.scaling (setCoords d x y) with
  | error e =>
    rw [hsc] at h
    simp at h
  | ok p =>
    obtain ⟨sx, sy⟩ := p
    rw [hsc] at h
    cases hx : (setCoords d x y).x with
    | none => rw [hx] at h; simp at h
    | some px =>
      cases hy : (setCoords d x y).y with
      | none => rw [hx, hy] at h; simp at h
      | some py =>
        cases hax : d.axes with
        | none => rw [hx, hy, hax] at h; simp at h
        | some ax =>
          rw [hx, hy, hax] at h
          simp only [Prod.mk.injEq] at h
          exact ⟨ax, px, py, sx, sy, rfl, rfl, rfl, rfl, h.1.symm⟩

/-- Successful path of `applyTo`: the initial `update()` succeeds and then
every component is registered on the axes. -/
theorem applyTo_ok (d : Drawing) (ax : Axes) (x y sx sy : ℝ)
    (hs : Drawing.scaling { d with axes := some ax, x := some x, y := some y } = .ok (sx, sy)) :
    Drawing.applyTo d ax x y =
      (addAllPatches
        (setTransforms { d with axes := some ax, x := some x, y := some y } sx sy x y ax.transId),
       none) := by
  simp only [Drawing.applyTo]
  rw [update_ok_eq { d with axes := some ax, x := some x, y := some y } none none ax x y sx sy
    rfl rfl rfl hs]
  rfl

/-- Failing path of `applyTo`: when the initial `update()` raises, no
component is registered on the axes. -/
theorem applyTo_error (d : Drawing) (ax : Axes) (x y : ℝ) (e : PyErr)
    (hs : Drawing.scaling { d with axes := some ax, x := some x, y := some y } = .error e) :
    Drawing.applyTo d ax x y = ({ d with axes := some ax, x := some x, y := some y }, some e) := by
  simp only [Drawing.applyTo]
  rw [update_error_eq { d with axes := some ax, x := some x, y := some y } none none e hs]
  rfl

/-- Counting invariant of the removal loop: when every listed component is
registered and the indices are distinct, the loop succeeds and each listed
index is erased once from the axes' patch list. -/
theorem removeComponents_count (is : List ℕ) (d : Drawing) (ax : Axes)
    (hax : d.axes = some ax)
    (hin : ∀ i ∈ is, ∃ c, d.components[i]? = some c ∧ c.inAxes = true)
    (hnd : is.Nodup) :
    (removeComponents d is).2 = none ∧
    ∀ ax2, (removeComponents d is).1.axes = some ax2 →
      ∀ j, ax2.patches.count j = ax.patches.count j - is.count j := by
  induction is generalizing d ax with
  | nil =>
    refine ⟨rfl, ?_⟩
    intro ax2 h2 j
    simp only [removeComponents] at h2
    rw [hax] at h2
    cases h2
    simp
  | cons i is ih =>
    obtain ⟨c, hget, htrue⟩ := hin i (List.mem_cons_self i is)
    have hnotmem : i ∉ is := (List.nodup_cons.mp hnd).1
    have hndtail : is.Nodup := (List.nodup_cons.mp hnd).2
    have hstep : removeComponents d (i :: is) =
        removeComponents
          { d with
            components := d.components.set i { c with inAxes := false }
            axes := some { ax with patches := ax.patches.erase i } }
          is := by
      simp only [removeComponents]
      rw [hget, hax]
      simp [htrue]
    have hintail : ∀ j ∈ is,
        ∃ c', ({ d with
            components := d.components.set i { c with inAxes := false }
            axes := some { ax with patches := ax.patches.erase i } } : Drawing).components[j]? = some c' ∧
          c'.inAxes = true := by
      intro j hj
      obtain ⟨c', hget', htrue'⟩ := hin j (List.mem_cons_of_mem i hj)
      refine ⟨c', ?_, htrue'⟩
      have hne : i ≠ j := fun he => hnotmem (he ▸ hj)
      simpa [List.getElem?_set_ne hne] using hget'
    obtain ⟨hres, hcount⟩ := ih _ _ rfl hintail hndtail
    rw [hstep]
    refine ⟨hres, ?_⟩
    intro ax2 h2 j
    have := hcount ax2 h2 j
    rw [this]
    simp only [List.count_erase, List.count_cons]
    rw [Nat.sub_sub]
    ring_nf

/-! ### Evaluation of the running example -/

/-- Intrinsic height of the example drawing before attachment. -/
theorem height_demo_init : Drawing.height (Drawing.init [demoPatch]) = .ok 5 := by
  simp [Drawing.height, topBottom, npMax, npMin, Drawing.init, demoPatch]

/-- Intrinsic height of the example drawing after attachment data is stored. -/
theorem height_demo : Drawing.height demoAttached = .ok 5 := by
  simp [Drawing.height, topBottom, npMax, npMin, demoAttached, demoPatch]

/-- Scaling of the example drawing: horizontal factor `demoSx`, vertical 1. -/
theorem scaling_demo : Drawing.scaling demoAttached = .ok (demoSx, 1) := by
  simp [Drawing.scaling, Drawing.axesToDataScale, Drawing.height, topBottom, npMax, npMin,
    demoAttached, demoPatch, demoAxes, demoSx]

/-- Fourth power of the example's scale ratio `2.5 ** 0.75`. -/
theorem ratio_pow4 : (((2.5 : ℝ) ^ ((3 : ℝ) / 4)) ^ (4 : ℕ)) = (2.5 : ℝ) ^ (3 : ℕ) := by
  rw [← Real.rpow_natCast ((2.5 : ℝ) ^ ((3 : ℝ) / 4)) 4,
    ← Real.rpow_mul (by norm_num : (0 : ℝ) ≤ 2.5)]
  norm_num

/-- Bounds on `2.5 ** 0.75`: it lies strictly between 1.988 and 1.989. -/
theorem ratio_bounds : (1.988 : ℝ) < (2.5 : ℝ) ^ ((3 : ℝ) / 4) ∧ (2.5 : ℝ) ^ ((3 : ℝ) / 4) < 1.989 := by
  have hpos : (0 : ℝ) < (2.5 : ℝ) ^ ((3 : ℝ) / 4) := Real.rpow_pos_of_pos (by norm_num) _
  have h4 := ratio_pow4
  constructor
  · by_contra hle
    push_neg at hle
    have : ((2.5 : ℝ) ^ ((3 : ℝ) / 4)) ^ (4 : ℕ) ≤ (1.988 : ℝ) ^ (4 : ℕ) :=
      pow_le_pow_left₀ (le_of_lt hpos) hle 4
    rw [h4] at this
    norm_num at this
  · by_contra hge
    push_neg at hge
    have : (1.989 : ℝ) ^ (4 : ℕ) ≤ ((2.5 : ℝ) ^ ((3 : ℝ) / 4)) ^ (4 : ℕ) :=
      pow_le_pow_left₀ (by norm_num) hge 4
    rw [h4] at this
    norm_num at this

/-- Numeric bounds on the example's horizontal scale factor: `demoSx ≈ 19.88`. -/
theorem demoSx_bounds : (19.88 : ℝ) < demoSx ∧ demoSx < 19.89 := by
  have hb := ratio_bounds
  have hrw : demoSx = 10 * (2.5 : ℝ) ^ ((3 : ℝ) / 4) := by
    unfold demoSx
    norm_num
  rw [hrw]
  constructor <;> nlinarith [hb.1, hb.2]

/-! ### Claims -/

/-- C1: after `applyTo(axes, x, y)` on a Drawing with at least one component,
every component's transform is the composition of `scale(sx, 1)`, then
`translate(x, y)`, then the canvas's data-to-screen transform, where `sx` is
the horizontal scale computed by `scaling()`. -/
theorem applyTo_sets_composed_transform (d : Drawing) (ax : Axes) (x y sx : ℝ)
    (hne : d.components ≠ [])
    (hs : Drawing.scaling { d with axes := some ax, x := some x, y := some y } = .ok (sx, 1)) :
    (Drawing.applyTo d ax x y).2 = none ∧
    ∀ c ∈ (Drawing.applyTo d ax x y).1.components,
      c.transform = Transform.compose
        (Transform.compose (Transform.scale sx 1) (Transform.translate x y))
        (Transform.transData ax.transId) := by
  rw [applyTo_ok d ax x y sx 1 hs]
  refine ⟨rfl, ?_⟩
  intro c hc
  simp only [addAllPatches, setTransforms, List.map_map, List.mem_map, Function.comp] at hc
  obtain ⟨c0, hc0, hceq⟩ := hc
  rw [← hceq]
  rfl

/-- Witness for C1 on the running example. -/
theorem applyTo_sets_composed_transform_witness :
    (Drawing.applyTo (Drawing.init [demoPatch]) demoAxes 3 4).2 = none ∧
    ∀ c ∈ (Drawing.applyTo (Drawing.init [demoPatch]) demoAxes 3 4).1.components,
      c.transform = Transform.compose
        (Transform.compose (Transform.scale demoSx 1) (Transform.translate 3 4))
        (Transform.transData demoAxes.transId) :=
  applyTo_sets_composed_transform (Drawing.init [demoPatch]) demoAxes 3 4 demoSx
    (by simp [Drawing.init]) scaling_demo

/-- C2: for an attached Drawing, `scaling()` returns horizontal scale
`viewWidth * ((intrinsicHeight / viewHeight) / 0.2) ** (3/4)` — with
`(viewWidth, viewHeight)` the view-limit extents and `intrinsicHeight` the
value of `height()` — and vertical scale exactly 1. -/
theorem scaling_implements_spec_formula (d : Drawing) (ax : Axes) (h : ℝ)
    (hax : d.axes = some ax) (hh : Drawing.height d = .ok h) :
    Drawing.scaling d =
      .ok (ax.viewLim.width * (h / ax.viewLim.height / 0.2) ^ ((3 : ℝ) / 4), 1) := by
  unfold Drawing.scaling Drawing.axesToDataScale
  simp only [hax, hh]

/-- Witness for C2 on the running example. -/
theorem scaling_implements_spec_formula_witness :
    Drawing.scaling demoAttached =
      .ok (demoAxes.viewLim.width * ((5 : ℝ) / demoAxes.viewLim.height / 0.2) ^ ((3 : ℝ) / 4), 1) :=
  scaling_implements_spec_formula demoAttached demoAxes 5 rfl height_demo

/-- C3: for a Drawing with a non-empty component list (components with
vertices), `height()` returns the maximum over all components of the
per-component vertical maximum minus the minimum over all components of the
per-component vertical minimum, computed from untransformed vertices; the
result depends only on the components' vertices — not on attachment state or
previously applied transforms (and the embedding of `height` is a pure
function of the state). -/
theorem height_is_intrinsic_extent (d : Drawing) (h1 : d.components ≠ [])
    (h2 : ∀ c ∈ d.components, c.xy ≠ []) :
    Drawing.height d = .ok (specHeight (d.components.map Patch.xy)) ∧
    ∀ d' : Drawing, d'.components.map Patch.xy = d.components.map Patch.xy →
      Drawing.height d' = Drawing.height d := by
  refine ⟨height_eq d h1 h2, ?_⟩
  intro d' hmap
  exact height_congr d' d hmap

/-- Witness for C3: the example drawing before attachment, compared with the
attached state (different `axes`, `x`, `y` attributes, same vertices). -/
theorem height_is_intrinsic_extent_witness :
    Drawing.height (Drawing.init [demoPatch]) =
      .ok (specHeight ((Drawing.init [demoPatch]).components.map Patch.xy)) ∧
    Drawing.height demoAttached = Drawing.height (Drawing.init [demoPatch]) :=
  ⟨(height_is_intrinsic_extent (Drawing.init [demoPatch]) (by simp [Drawing.init])
      (by simp [Drawing.init, demoPatch])).1,
   (height_is_intrinsic_extent (Drawing.init [demoPatch]) (by simp [Drawing.init])
      (by simp [Drawing.init, demoPatch])).2 demoAttached rfl⟩

/-- C4 counterexample: in the spec's §8 example (components spanning
vertical coordinates `[-5, 0]`, view bounds 10 × 10) the horizontal scale
returned by `scaling()` exceeds 17.46 by more than 2, so it is not
approximately 17.46. -/
theorem scaling_example_not_17_46 :
    Drawing.scaling demoAttached = .ok (demoSx, 1) ∧ 2 < demoSx - 17.46 := by
  refine ⟨scaling_demo, ?_⟩
  have hb := demoSx_bounds
  nlinarith [hb.1]

/-- C4 amended: in the §8 example, `heightFactor = 5 / 10 = 0.5` and the
horizontal scale is `10 * (0.5 / 0.2) ** 0.75 = demoSx ≈ 19.88` (not 17.46);
attaching at `(3, 4)` composes `scale(demoSx, 1)`, then `translate(3, 4)`,
then the canvas transform, on every component. -/
theorem applyTo_example_exact :
    Drawing.height demoAttached = .ok 5 ∧
    (5 : ℝ) / demoAxes.viewLim.height = 0.5 ∧
    Drawing.scaling demoAttached = .ok (demoSx, 1) ∧
    19.88 < demoSx ∧ demoSx < 19.89 ∧
    (Drawing.applyTo (Drawing.init [demoPatch]) demoAxes 3 4).2 = none ∧
    ∀ c ∈ (Drawing.applyTo (Drawing.init [demoPatch]) demoAxes 3 4).1.components,
      c.transform = Transform.compose
        (Transform.compose (Transform.scale demoSx 1) (Transform.translate 3 4))
        (Transform.transData demoAxes.transId) := by
  have happ := applyTo_ok (Drawing.init [demoPatch]) demoAxes 3 4 demoSx 1 scaling_demo
  refine ⟨height_demo, by simp [demoAxes]; norm_num, scaling_demo, demoSx_bounds.1,
    demoSx_bounds.2, ?_, ?_⟩
  · rw [happ]
  · rw [happ]
    intro c hc
    simp only [addAllPatches, setTransforms, List.map_map, List.mem_map, Function.comp] at hc
    obtain ⟨c0, hc0, hceq⟩ := hc
    rw [← hceq]
    rfl

/-- C5 counterexample: `height()` on a never-attached Drawing with one
component succeeds (it never consults the canvas), and `remove()` on a
Drawing with an empty component list is a no-op that raises nothing — so the
claim that these calls raise an error is false. -/
theorem preattach_height_and_empty_remove_succeed :
    Drawing.height (Drawing.init [demoPatch]) = .ok 5 ∧
    Drawing.remove (Drawing.init []) = (Drawing.init [], none) :=
  ⟨height_demo_init, rfl⟩

/-- C5 amended: `update()` before attach raises `AttributeError` (from the
`None` axes); `height()` and `update()` on a Drawing with zero components
raise `ValueError` (empty reduction); `remove()` before attach on a Drawing
with at least one component raises `NotImplementedError` (from the
component's removal hook); all errors propagate untranslated. (`height()`
before attach with components and `remove()` with zero components succeed.) -/
theorem failure_modes_amended (cs : List Patch) (x y : Option ℝ) (ax : Axes)
    (hne : cs ≠ []) :
    (Drawing.update (Drawing.init cs) x y).2 = some .attributeError ∧
    Drawing.height { components := [], axes := some ax, x := some 0, y := some 0 } =
      .error .valueError ∧
    (Drawing.update { components := [], axes := some ax, x := some 0, y := some 0 } x y).2 =
      some .valueError ∧
    (Drawing.remove (Drawing.init cs)).2 = some .notImplementedError := by
  refine ⟨?_, rfl, ?_, ?_⟩
  · have h1 : (setCoords (Drawing.init cs) x y).axes = none := rfl
    rw [update_error_eq (Drawing.init cs) x y .attributeError (scaling_of_axes_none _ h1)]
  · have h3 : Drawing.scaling
        (setCoords { components := [], axes := some ax, x := some 0, y := some 0 } x y) =
        .error .valueError := rfl
    rw [update_error_eq _ x y .valueError h3]
  · cases cs with
    | nil => exact absurd rfl hne
    | cons c cs' =>
      unfold Drawing.remove
      have hr : List.range (Drawing.init (c :: cs')).components.length
          = 0 :: List.map Nat.succ (List.range cs'.length) := by
        simp [Drawing.init, List.range_succ_eq_map]
      rw [hr]
      simp [removeComponents, Drawing.init]

/-- Witness for the amended C5 on concrete data. -/
theorem failure_modes_amended_witness :
    (Drawing.update (Drawing.init [demoPatch]) none none).2 = some .attributeError ∧
    Drawing.height { components := [], axes := some demoAxes, x := some 0, y := some 0 } =
      .error .valueError ∧
    (Drawing.update { components := [], axes := some demoAxes, x := some 0, y := some 0 }
      none none).2 = some .valueError ∧
    (Drawing.remove (Drawing.init [demoPatch])).2 = some .notImplementedError :=
  failure_modes_amended [demoPatch] none none demoAxes (by simp)

/-- C6: `update` is idempotent — if a call `update(x, y)` succeeds, calling
it again with the same arguments (no canvas change in between) leaves the
Drawing, including every component's transform, in exactly the same state. -/
theorem update_idempotent (d d' : Drawing) (x y : Option ℝ)
    (h : Drawing.update d x y = (d', none)) :
    Drawing.update d' x y = (d', none) := by
  obtain ⟨ax, px, py, sx, sy, hx, hy, hax, hsc, hd'⟩ := update_ok_inv d d' x y h
  have hfix : setCoords d' x y = d' := by
    rw [hd', setCoords_setTransforms, setCoords_idem]
  have hscal' : Drawing.scaling (setCoords d' x y) = .ok (sx, sy) := by
    rw [hfix, hd', scaling_setTransforms]
    exact hsc
  have hx' : (setCoords d' x y).x = some px := by
    rw [hfix, hd']
    exact hx
  have hy' : (setCoords d' x y).y = some py := by
    rw [hfix, hd']
    exact hy
  have hax' : d'.axes = some ax := by
    rw [hd']
    exact hax
  rw [update_ok_eq d' x y ax px py sx sy hx' hy' hax' hscal']
  rw [hfix]
  rw [hd']
  rw [setTransforms_idem]

/-- Witness for C6: repeating the example's successful parameterless update
changes nothing. -/
theorem update_idempotent_witness :
    Drawing.update (setTransforms demoAttached demoSx 1 3 4 demoAxes.transId) none none =
      (setTransforms demoAttached demoSx 1 3 4 demoAxes.transId, none) :=
  update_idempotent demoAttached (setTransforms demoAttached demoSx 1 3 4 demoAxes.transId)
    none none
    (update_ok_eq demoAttached none none demoAxes 3 4 demoSx 1 rfl rfl rfl scaling_demo)

/-- C7: `update()` with no arguments keeps the stored position `(x, y)` at
its last-set values while the scale is recomputed from the canvas's current
view bounds and the composed transform is reapplied to every component. -/
theorem update_noargs_keeps_position (d : Drawing) (ax : Axes) (px py sx sy : ℝ)
    (hx : d.x = some px) (hy : d.y = some py) (hax : d.axes = some ax)
    (hs : Drawing.scaling d = .ok (sx, sy)) :
    Drawing.update d none none = (setTransforms d sx sy px py ax.transId, none) ∧
    (Drawing.update d none none).1.x = d.x ∧
    (Drawing.update d none none).1.y = d.y := by
  have heq := update_ok_eq d none none ax px py sx sy hx hy hax hs
  refine ⟨heq, ?_, ?_⟩ <;> rw [heq] <;> rfl

/-- Witness for C7 on the running example. -/
theorem update_noargs_keeps_position_witness :
    Drawing.update demoAttached none none =
      (setTransforms demoAttached demoSx 1 3 4 demoAxes.transId, none) ∧
    (Drawing.update demoAttached none none).1.x = demoAttached.x ∧
    (Drawing.update demoAttached none none).1.y = demoAttached.y :=
  update_noargs_keeps_position demoAttached demoAxes 3 4 demoSx 1 rfl rfl rfl scaling_demo

/-- C8: `update(x = v)` overwrites only the stored x coordinate, leaves the
stored y unchanged, and reapplies the composed transform (scale, translate
at the new position, canvas mapping) to every component. -/
theorem update_x_overwrites_only_x (d : Drawing) (ax : Axes) (v py sx sy : ℝ)
    (hy : d.y = some py) (hax : d.axes = some ax)
    (hs : Drawing.scaling d = .ok (sx, sy)) :
    Drawing.update d (some v) none =
      (setTransforms { d with x := some v } sx sy v py ax.transId, none) ∧
    (Drawing.update d (some v) none).1.x = some v ∧
    (Drawing.update d (some v) none).1.y = d.y := by
  have hcoords : setCoords d (some v) none = { d with x := some v } := rfl
  have hs' : Drawing.scaling (setCoords d (some v) none) = .ok (sx, sy) := hs
  have heq := update_ok_eq d (some v) none ax v py sx sy rfl hy hax hs'
  rw [hcoords] at heq
  refine ⟨heq, ?_, ?_⟩ <;> rw [heq] <;> rfl

/-- Witness for C8: updating the example to `x = 5` keeps `y = 4`. -/
theorem update_x_overwrites_only_x_witness :
    Drawing.update demoAttached (some 5) none =
      (setTransforms { demoAttached with x := some 5 } demoSx 1 5 4 demoAxes.transId, none) ∧
    (Drawing.update demoAttached (some 5) none).1.x = some 5 ∧
    (Drawing.update demoAttached (some 5) none).1.y = demoAttached.y :=
  update_x_overwrites_only_x demoAttached demoAxes 5 4 demoSx 1 rfl rfl scaling_demo

/-- C9: after a successful `applyTo` followed by `remove()`, none of the
Drawing's components remain registered in the canvas's set of drawable
objects (every component has been deregistered), and `remove()` raises
nothing. -/
theorem remove_deregisters_components (comps : List Patch) (ax : Axes) (x y : ℝ)
    (hfresh : ∀ i, i ∈ ax.patches → ¬ i < comps.length)
    (hok : (Drawing.applyTo (Drawing.init comps) ax x y).2 = none) :
    (Drawing.remove (Drawing.applyTo (Drawing.init comps) ax x y).1).2 = none ∧
    ∀ i, i < comps.length →
      ∀ ax2, (Drawing.remove (Drawing.applyTo (Drawing.init comps) ax x y).1).1.axes = some ax2 →
        i ∉ ax2.patches := by
  have hinit : ({ Drawing.init comps with axes := some ax, x := some x, y := some y } : Drawing)
      = { components := comps, axes := some ax, x := some x, y := some y } := rfl
  cases hsc : Drawing.scaling { components := comps, axes := some ax, x := some x, y := some y } with
  | error e =>
    exfalso
    have := applyTo_error (Drawing.init comps) ax x y e (by rw [hinit]; exact hsc)
    rw [this] at hok
    simp at hok
  | ok p =>
    obtain ⟨sx, sy⟩ := p
    have happ := applyTo_ok (Drawing.init comps) ax x y sx sy (by rw [hinit]; exact hsc)
    rw [happ]
    set dFin : Drawing := addAllPatches (setTransforms { Drawing.init comps with
      axes := some ax, x := some x, y := some y } sx sy x y ax.transId) with hdFin
    have hlen : dFin.components.length = comps.length := by
      simp [hdFin, addAllPatches, setTransforms, Drawing.init]
    have haxF : dFin.axes = some
        { viewLim := ax.viewLim, transId := ax.transId
          patches := ax.patches ++ List.range comps.length } := by
      simp [hdFin, addAllPatches, setTransforms, Drawing.init]
    have hin : ∀ i ∈ List.range dFin.components.length,
        ∃ c, dFin.components[i]? = some c ∧ c.inAxes = true := by
      intro i hi
      rw [hlen, List.mem_range] at hi
      have hcomp : dFin.components = comps.map (fun c =>
          { xy := c.xy, transform := composedTransform sx sy x y ax.transId, inAxes := true }) := by
        simp [hdFin, addAllPatches, setTransforms, Drawing.init, List.map_map]
      rw [hcomp, List.getElem?_map, List.getElem?_eq_getElem hi]
      exact ⟨_, rfl, rfl⟩
    obtain ⟨hres, hcount⟩ := removeComponents_count (List.range dFin.components.length) dFin
      _ haxF hin (List.nodup_range _)
    unfold Drawing.remove
    refine ⟨hres, ?_⟩
    intro i hi ax2 hax2
    have hc := hcount ax2 hax2 i
    rw [hlen] at hc
    have h1 : List.count i (ax.patches ++ List.range comps.length) = 1 := by
      rw [List.count_append]
      have hz : List.count i ax.patches = 0 :=
        List.count_eq_zero.mpr (fun hmem => hfresh i hmem hi)
      have ho : List.count i (List.range comps.length) = 1 :=
        List.count_eq_one_of_mem (List.nodup_range _) (List.mem_range.mpr hi)
      omega
    have h2 : List.count i (List.range comps.length) = 1 :=
      List.count_eq_one_of_mem (List.nodup_range _) (List.mem_range.mpr hi)
    rw [h1, h2] at hc
    exact List.count_eq_zero.mp (by omega)

/-- Witness for C9 on the running example (fresh canvas, one component). -/
theorem remove_deregisters_components_witness :
    (Drawing.remove (Drawing.applyTo (Drawing.init [demoPatch]) demoAxes 3 4).1).2 = none ∧
    ∀ i, i < ([demoPatch] : List Patch).length →
      ∀ ax2,
        (Drawing.remove (Drawing.applyTo (Drawing.init [demoPatch]) demoAxes 3 4).1).1.axes =
          some ax2 →
        i ∉ ax2.patches :=
  remove_deregisters_components [demoPatch] demoAxes 3 4
    (by simp [demoAxes])
    (by rw [applyTo_ok (Drawing.init [demoPatch]) demoAxes 3 4 demoSx 1 scaling_demo])

/-- C10: calling `update(x = v)` (or `update(y = w)`) on a never-attached
Drawing overwrites the stored coordinate before the call fails on the
missing canvas reference; the raised `AttributeError` does not roll the
mutation back. -/
theorem update_mutates_before_error (d : Drawing) (v w : ℝ) (hax : d.axes = none) :
    ((Drawing.update d (some v) none).1.x = some v ∧
     (Drawing.update d (some v) none).2 = some .attributeError) ∧
    ((Drawing.update d none (some w)).1.y = some w ∧
     (Drawing.update d none (some w)).2 = some .attributeError) := by
  have h1 : Drawing.scaling (setCoords d (some v) none) = .error .attributeError :=
    scaling_of_axes_none _ (by rw [setCoords_axes]; exact hax)
  have h2 : Drawing.scaling (setCoords d none (some w)) = .error .attributeError :=
    scaling_of_axes_none _ (by rw [setCoords_axes]; exact hax)
  rw [update_error_eq d (some v) none .attributeError h1,
    update_error_eq d none (some w) .attributeError h2]
  exact ⟨⟨rfl, rfl⟩, ⟨rfl, rfl⟩⟩

/-- Witness for C10 on a never-attached example drawing. -/
theorem update_mutates_before_error_witness :
    ((Drawing.update (Drawing.init [demoPatch]) (some 5) none).1.x = some 5 ∧
     (Drawing.update (Drawing.init [demoPatch]) (some 5) none).2 = some .attributeError) ∧
    ((Drawing.update (Drawing.init [demoPatch]) none (some 6)).1.y = some 6 ∧
     (Drawing.update (Drawing.init [demoPatch]) none (some 6)).2 = some .attributeError) :=
  update_mutates_before_error (Drawing.init [demoPatch]) 5 6 rfl
